import Mathlib

/-!
Verification of the command-line interpreter core of the `ben` interactive
binary viewer (src/src/parse.cc, src/src/variable.cc, src/unnamed/part_004).

Strings are modelled as `List Char`; the process-wide variable map is an
association list threaded explicitly; C++ exceptions become `Except Err`.
-/

set_option maxRecDepth 4000

namespace Ben

/-- Error kinds raised by the core: `std::runtime_error("parse error ...")`
thrown by `tokenize_quoted`, and `std::runtime_error("bad substitution")`
thrown by `unescape_string_literal`. -/
inductive Err where
  | TokenizeError
  | BadSubstitutionError
deriving DecidableEq

/-- `std::isalpha` in the C locale (ASCII letters), as used by parse.cc. -/
def isalpha (c : Char) : Bool :=
  ('A' ≤ c && c ≤ 'Z') || ('a' ≤ c && c ≤ 'z')

/-- `std::isdigit` in the C locale. -/
def isdigit (c : Char) : Bool :=
  '0' ≤ c && c ≤ '9'

/-- `std::isalnum` in the C locale. -/
def isalnum (c : Char) : Bool :=
  isalpha c || isdigit c

/-- The process-wide `variable_map` (variable.cc line 28), modelled as an
association list where the most recent binding for a key shadows older ones. -/
abbrev VarStore := List (List Char × List Char)

/-- variable.cc lines 31-37: `lookup_variable` returns the mapped value, or
the empty string when the name is absent. -/
def lookup_variable (m : VarStore) (name : List Char) : List Char :=
  match List.lookup name m with
  | none => []
  | some v => v

/-- variable.cc lines 39-41: `variable_map[key] = value` (insert/overwrite). -/
def add_variable (m : VarStore) (key value : List Char) : VarStore :=
  (key, value) :: m

/-- parse.cc line 196: the `expand_type` enumeration of
`unescape_string_literal`. -/
inductive expand_type where
  | NONE
  | MAYBE
  | PLAIN
  | BRACE
deriving DecidableEq

/-- The mutable locals of `unescape_string_literal` (parse.cc lines 197-202). -/
structure ExpSt where
  result : List Char
  double_quot : Bool
  single_quot : Bool
  var_expand : expand_type
  var_name : List Char
  esc_sequence : Bool
deriving DecidableEq

/-- parse.cc lines 213-234: the control-character table applied to the
character following a backslash inside a double-quoted region. -/
def esc_map (c : Char) : Char :=
  if c = '0' then '\x00'
  else if c = 'a' then '\x07'
  else if c = 'e' then '\x1b'
  else if c = 'n' then '\n'
  else if c = 't' then '\t'
  else if c = 'v' then '\x0b'
  else c

/-- parse.cc lines 285-300: the final `switch` of the per-character loop of
`unescape_string_literal` (reached when no earlier stage consumed `c`). -/
def normal_char (st : ExpSt) (c : Char) : ExpSt :=
  if c = '"' then { st with double_quot := !st.double_quot }
  else if c = '\'' then { st with single_quot := true }
  else if c = '\\' then { st with esc_sequence := true }
  else if c = '$' then { st with var_expand := expand_type.MAYBE }
  else { st with result := st.result ++ [c] }

/-- parse.cc lines 248-282: the name-accumulation stage of a pending variable
expansion.  With an empty `var_name`, a character that cannot start a name
abandons the substitution: a literal `$` is emitted and the character falls
through to `normal_char`.  With a nonempty `var_name`, a non-name character
terminates a PLAIN expansion (reprocessing the character), while a BRACE
expansion accepts only `}` and otherwise throws "bad substitution". -/
def name_stage (m : VarStore) (st : ExpSt) (c : Char) : Except Err ExpSt :=
  if st.var_name = [] then
    if isalpha c || c == '_' then
      Except.ok { st with var_name := st.var_name ++ [c] }
    else
      Except.ok (normal_char { st with result := st.result ++ ['$'],
                                       var_expand := expand_type.NONE } c)
  else
    if isalnum c || c == '_' then
      Except.ok { st with var_name := st.var_name ++ [c] }
    else
      if st.var_expand = expand_type.PLAIN then
        Except.ok (normal_char { st with
          result := st.result ++ lookup_variable m st.var_name,
          var_name := [], var_expand := expand_type.NONE } c)
      else
        if c = '}' then
          Except.ok { st with
            result := st.result ++ lookup_variable m st.var_name,
            var_name := [], var_expand := expand_type.NONE }
        else
          Except.error Err.BadSubstitutionError

/-- parse.cc lines 239-283 followed by the final switch: the variable-expansion
stage.  In MAYBE state a `{` switches to BRACE; any other character commits to
PLAIN and proceeds to `name_stage`. -/
def var_stage (m : VarStore) (st : ExpSt) (c : Char) : Except Err ExpSt :=
  if st.var_expand = expand_type.NONE then
    Except.ok (normal_char st c)
  else if st.var_expand = expand_type.MAYBE then
    if c = '{' then
      Except.ok { st with var_expand := expand_type.BRACE }
    else
      name_stage m { st with var_expand := expand_type.PLAIN } c
  else
    name_stage m st c

/-- One iteration of the per-character loop of `unescape_string_literal`
(parse.cc lines 203-300): single-quote suppression first, then a pending
escape (decoded via `esc_map` only inside double quotes; outside, the
character falls through with the flag cleared), then variable expansion,
then the normal switch. -/
def expand_step (m : VarStore) (st : ExpSt) (c : Char) : Except Err ExpSt :=
  if st.single_quot then
    Except.ok { st with single_quot := c == '\'',
                        result := st.result ++ [c] }
  else if st.esc_sequence then
    if st.double_quot then
      Except.ok { st with esc_sequence := false,
                          result := st.result ++ [esc_map c] }
    else
      var_stage m { st with esc_sequence := false } c
  else
    var_stage m st c

/-- The `for (char c : str)` loop of `unescape_string_literal`. -/
def expand_loop (m : VarStore) (st : ExpSt) : List Char → Except Err ExpSt
  | [] => Except.ok st
  | c :: cs =>
    match expand_step m st c with
    | Except.error e => Except.error e
    | Except.ok st1 => expand_loop m st1 cs

/-- parse.cc lines 302-314: the end-of-string handling of
`unescape_string_literal`: a dangling MAYBE emits a literal `$`, a PLAIN
expansion is resolved, and an open BRACE form is a "bad substitution". -/
def expand_finish (m : VarStore) (st : ExpSt) : Except Err (List Char) :=
  if st.var_expand = expand_type.NONE then Except.ok st.result
  else if st.var_expand = expand_type.MAYBE then Except.ok (st.result ++ ['$'])
  else if st.var_expand = expand_type.PLAIN then
    Except.ok (st.result ++ lookup_variable m st.var_name)
  else Except.error Err.BadSubstitutionError

/-- parse.cc lines 195-317: `unescape_string_literal`, the value expander. -/
def unescape_string_literal (m : VarStore) (s : List Char) :
    Except Err (List Char) :=
  match expand_loop m ⟨[], false, false, expand_type.NONE, [], false⟩ s with
  | Except.error e => Except.error e
  | Except.ok st => expand_finish m st

/-- parse.cc lines 33-37: the token kinds of the tokenizer. -/
inductive token_type where
  | NONE
  | STRING
  | END_STMT
deriving DecidableEq

/-- parse.cc lines 39-43: a token is a kind together with a half-open span
`[tbegin, tend)` of byte offsets into the original line. -/
structure token where
  type : token_type := token_type.NONE
  tbegin : Nat := 0
  tend : Nat := 0
deriving DecidableEq

/-- The scan of `tokenize_quoted` (parse.cc lines 54-62): starting just after
the opening quote, advance over the line, skipping the character after an
unescaped backslash, until the terminating character is found (its position is
returned) or the line ends (`none`, i.e. the "parse error" throw at line 64).
The fuel argument only bounds the recursion; `tokenize_quoted` passes enough
for the whole line. -/
def tq_loop (cl : List Char) (endc : Char) : Nat → Nat → Bool → Option Nat
  | 0, _, _ => none
  | fuel + 1, pos, escaped =>
    if pos < cl.length then
      if escaped then tq_loop cl endc fuel (pos + 1) false
      else
        let c := cl.getD pos ' '
        if c == endc then some pos
        else tq_loop cl endc fuel (pos + 1) (c == '\\')
    else none

/-- parse.cc lines 45-65: `tokenize_quoted`.  The terminator is `'` when the
opening character is `'`, otherwise `"`.  Returns the position of the matching
unescaped terminator, or `none` for the "parse error" throw. -/
def tokenize_quoted (cl : List Char) (pos : Nat) : Option Nat :=
  let endc := if cl.getD pos ' ' == '\'' then '\'' else '"'
  tq_loop cl endc cl.length (pos + 1) false

/-- parse.cc macro `PUSH_CURRENT` (lines 73-79), effect on the token list:
append the current token with its end set to `i`, unless no token is open. -/
def push_current (current : token) (tokens : List token) (i : Nat) :
    List token :=
  if current.type = token_type.NONE then tokens
  else tokens ++ [{ current with tend := i }]

/-- parse.cc macro `PUSH_CURRENT`, effect on `current` itself: its `end`
field is assigned `i` when the token is pushed (the later `RENEW_TOKEN`
overwrites only `type` and `begin`, so this assignment is observable in the
trailing END_STMT token). -/
def after_push (current : token) (i : Nat) : token :=
  if current.type = token_type.NONE then current
  else { current with tend := i }

/-- parse.cc lines 110-114 (the `default:` case): when the current token is
not a STRING, push it and renew `current` as a STRING starting at `i`. -/
def renew_string (current : token) (tokens : List token) (i : Nat) :
    token × List token :=
  if current.type = token_type.STRING then (current, tokens)
  else ({ after_push current i with type := token_type.STRING, tbegin := i },
        push_current current tokens i)

/-- The main loop of `tokenize` (parse.cc lines 71-133), one branch per case
of the `switch`, with the position jump after a quoted region.  The fuel
argument only bounds the recursion; `tokenize` passes `cl.length + 1`, which
is enough because every step advances `i`.  The end-of-line epilogue (lines
125-131) pushes the open token with `end = cl.length` and then appends the
trailing END_STMT token reusing `current`'s span fields. -/
def tokenize_go (cl : List Char) :
    Nat → Nat → Bool → token → List token → Except Err (List token)
  | fuel, i, escaped, current, tokens =>
    if i < cl.length then
      match fuel with
      | 0 => Except.error Err.TokenizeError
      | fuel + 1 =>
        if escaped then
          tokenize_go cl fuel (i + 1) false current tokens
        else
          let c := cl.getD i ' '
          if c == '\r' || c == '\n' || c == ';' then
            tokenize_go cl fuel (i + 1) false
              { after_push current i with type := token_type.END_STMT,
                                          tbegin := i }
              (push_current current tokens i)
          else if c == ' ' then
            tokenize_go cl fuel (i + 1) false
              { after_push current i with type := token_type.NONE,
                                          tbegin := i }
              (push_current current tokens i)
          else if c == '\\' then
            tokenize_go cl fuel (i + 1) true current tokens
          else
            let p := renew_string current tokens i
            if c == '"' || c == '\'' then
              match tokenize_quoted cl i with
              | none => Except.error Err.TokenizeError
              | some q => tokenize_go cl fuel (q + 1) false p.1 p.2
            else
              tokenize_go cl fuel (i + 1) false p.1 p.2
    else
      let current2 :=
        if current.type = token_type.NONE then current
        else { current with tend := cl.length }
      let tokens2 :=
        if current.type = token_type.NONE then tokens
        else tokens ++ [current2]
      Except.ok (tokens2 ++ [{ current2 with type := token_type.END_STMT }])

/-- parse.cc lines 67-134: `tokenize`. -/
def tokenize (cl : List Char) : Except Err (List token) :=
  tokenize_go cl (cl.length + 1) 0 false
    { type := token_type.NONE, tbegin := 0, tend := 0 } []

/-- parse.cc lines 136-151: `is_assignment`, applied to the characters of a
token's span: find the first `=` (none means not an assignment); the first
character of the span must be alphabetic or `_`; every character strictly
between the start and that `=` must be alphanumeric or `_`. -/
def is_assignment_span (s : List Char) : Bool :=
  match s.findIdx? (fun c => c == '=') with
  | none => false
  | some idx =>
    match s with
    | [] => false
    | c0 :: rest =>
      (isalpha c0 || c0 == '_') &&
        (rest.take (idx - 1)).all (fun c => isalnum c || c == '_')

/-- The characters of a token's span `[b, e)` within the line
(`std::string(commandline.begin() + begin, commandline.begin() + end)`). -/
def spanStr (cl : List Char) (b e : Nat) : List Char :=
  (cl.take e).drop b

/-- parse.cc `is_assignment` on a token of the line. -/
def is_assignment (cl : List Char) (tk : token) : Bool :=
  is_assignment_span (spanStr cl tk.tbegin tk.tend)

/-- parse.hh line 26: the statement kind stored in a chain node. -/
inductive command_type where
  | COMMAND
  | ASSIGN
deriving DecidableEq

/-- parse.hh: the two `single_statement` subclasses.  An
`assignment_statement` carries `lhs` and `rhs`; a `command_statement`
carries its ordered raw argument list `command_line`. -/
inductive single_statement where
  | assignment_statement (lhs rhs : List Char)
  | command_statement (command_line : List (List Char))
deriving DecidableEq

/-- parse.hh lines 54-58: one node of the `command_chain` (the `next` pointer
becomes the list structure). -/
structure chain_node where
  type : command_type
  stmt : single_statement
deriving DecidableEq

/-- The inner loop of the COMMAND case of `parse` (parse.cc lines 178-184):
greedily consume consecutive STRING tokens as arguments; the first non-STRING
token that stops the loop is then skipped by the outer `++i`. -/
def take_args (cl : List Char) : List token → List (List Char) × List token
  | [] => ([], [])
  | tk :: rest =>
    if tk.type = token_type.STRING then
      let p := take_args cl rest
      (spanStr cl tk.tbegin tk.tend :: p.1, p.2)
    else ([], rest)

/-- The token walk of `parse` (parse.cc lines 158-186): skip END_STMT
separators; an assignment token becomes one ASSIGN node (name = span before
the first `=`, raw value = span after it); otherwise a COMMAND node consumes
the maximal run of STRING tokens.  The fuel argument only bounds the
recursion; `parse` passes `tokens.length + 1`, which is enough because every
step consumes at least one token. -/
def parse_go (cl : List Char) : Nat → List token → List chain_node
  | 0, _ => []
  | _, [] => []
  | fuel + 1, tk :: rest =>
    if tk.type = token_type.END_STMT then parse_go cl fuel rest
    else
      if is_assignment cl tk then
        let s := spanStr cl tk.tbegin tk.tend
        let lhs := s.takeWhile (fun c => !(c == '='))
        let rhs := (s.dropWhile (fun c => !(c == '='))).drop 1
        { type := command_type.ASSIGN,
          stmt := single_statement.assignment_statement lhs rhs }
          :: parse_go cl fuel rest
      else
        let p := take_args cl (tk :: rest)
        { type := command_type.COMMAND,
          stmt := single_statement.command_statement p.1 }
          :: parse_go cl fuel p.2

/-- parse.cc lines 153-188: `parse`. -/
def parse (cl : List Char) (tokens : List token) : List chain_node :=
  parse_go cl (tokens.length + 1) tokens

/-- parse.cc lines 320-322: `parse_command_line`.  A tokenize error
propagates. -/
def parse_command_line (cl : List Char) : Except Err (List chain_node) :=
  match tokenize cl with
  | Except.error e => Except.error e
  | Except.ok tokens => Except.ok (parse cl tokens)

/-- The interpreter-visible process state: the global `variable_map`
(variable.cc), the global `repl_exited` flag (part_004 line 50), and a trace
of the argument lists handed to `command_execute` (command.cc), recording the
dispatches into the command registry. -/
structure EState where
  vars : VarStore
  repl_exited : Bool
  dispatched : List (List (List Char))
deriving DecidableEq

/-- command.cc `command_execute` composed with the registered handler relevant
to the interpreter core: dispatching an empty argument list returns 255
without consulting the registry; otherwise the dispatch is recorded and, when
`args[0]` is "exit", the handler registered in option.cc calls `exit_repl()`
(setting `repl_exited`, part_004 lines 86-88) and returns 0.  Handlers other
than "exit" act outside the interpreter core (I/O, buffers); their effect is
abstracted to the recorded dispatch and an integer status. -/
def command_execute (args : List (List Char)) (st : EState) : Int × EState :=
  if args.isEmpty then (255, st)
  else
    let st1 := { st with dispatched := st.dispatched ++ [args] }
    if args.headD [] = "exit".data then
      (0, { st1 with repl_exited := true })
    else (0, st1)

/-- parse.cc lines 334-347: `assignment_statement::execute` stores the
expanded right-hand side under `lhs` and returns 0;
`command_statement::execute` expands every raw argument in order (a thrown
"bad substitution" aborts before any dispatch) and hands the result to
`command_execute`. -/
def stmt_execute (stmt : single_statement) (st : EState) :
    Except Err (Int × EState) :=
  match stmt with
  | single_statement.assignment_statement lhs rhs =>
    match unescape_string_literal st.vars rhs with
    | Except.error e => Except.error e
    | Except.ok v =>
      Except.ok (0, { st with vars := add_variable st.vars lhs v })
  | single_statement.command_statement args =>
    match args.mapM (unescape_string_literal st.vars) with
    | Except.error e => Except.error e
    | Except.ok eargs => Except.ok (command_execute eargs st)

/-- The dispatch loop of `execute_command_line` (part_004 lines 42-46): walk
the chain in order, executing every node; the integer status is discarded and
neither it nor `repl_exited` is consulted.  A thrown error stops the walk and
is left in flight together with the state at the throw point. -/
def run_chain (nodes : List chain_node) (st : EState) : EState × Option Err :=
  match nodes with
  | [] => (st, none)
  | n :: rest =>
    match stmt_execute n.stmt st with
    | Except.error e => (st, some e)
    | Except.ok p => run_chain rest p.2

/-- The parse phase of `execute_command_line` (part_004 line 40), as a
function of the ambient interpreter state: the call happens while the global
`variable_map` is in scope (variable.hh is included by parse.cc), but the
source's `tokenize`, `is_assignment` and `parse` never read it, so the
translation does not consume `st`. -/
def parse_phase (st : EState) (line : List Char) :
    Except Err (List chain_node) :=
  parse_command_line line

/-- part_004 lines 39-48: `execute_command_line` parses the line under the
ambient state and runs the resulting chain; a parse error propagates before
any statement runs. -/
def execute_command_line (line : List Char) (st : EState) :
    EState × Option Err :=
  match parse_phase st line with
  | Except.error e => (st, some e)
  | Except.ok nodes => run_chain nodes st

/-- The per-line body of `start_repl` (part_004 lines 57-80) over a list of
input lines: each iteration runs PRE_COMMAND, the line, and POST_COMMAND
inside a try block; a thrown error is caught at the REPL level (the
diagnostic print is outside the model) and the loop proceeds to the next
line; after a successfully executed line, a raised `repl_exited` breaks the
loop. -/
def start_repl_go (lines : List (List Char)) (st : EState) : EState :=
  match lines with
  | [] => st
  | l :: rest =>
    let pre := execute_command_line
      (lookup_variable st.vars "PRE_COMMAND".data) st
    match pre.2 with
    | some _ => start_repl_go rest pre.1
    | none =>
      let user := execute_command_line l pre.1
      match user.2 with
      | some _ => start_repl_go rest user.1
      | none =>
        if user.1.repl_exited then user.1
        else
          start_repl_go rest
            (execute_command_line
              (lookup_variable user.1.vars "POST_COMMAND".data) user.1).1

/-- The configurations `(position, escaped flag, current token, emitted
tokens)` that the main scan of `tokenize` reaches on the line `cl`, one
constructor per branch of the loop body.  A quote character reached through
`quote_step` is an *opening* quote in the sense of the tokenizer: it is
processed by the `default:` case (not escaped, not swallowed by an earlier
quoted span). -/
inductive tok_reaches (cl : List Char) :
    Nat → Bool → token → List token → Prop where
  | init :
      tok_reaches cl 0 false { type := token_type.NONE, tbegin := 0, tend := 0 } []
  | esc_step (i : Nat) (cur : token) (toks : List token) :
      i < cl.length →
      tok_reaches cl i true cur toks →
      tok_reaches cl (i + 1) false cur toks
  | sep_step (i : Nat) (cur : token) (toks : List token) :
      i < cl.length →
      (cl.getD i ' ' = '\r' ∨ cl.getD i ' ' = '\n' ∨ cl.getD i ' ' = ';') →
      tok_reaches cl i false cur toks →
      tok_reaches cl (i + 1) false
        { after_push cur i with type := token_type.END_STMT, tbegin := i }
        (push_current cur toks i)
  | space_step (i : Nat) (cur : token) (toks : List token) :
      i < cl.length →
      cl.getD i ' ' = ' ' →
      tok_reaches cl i false cur toks →
      tok_reaches cl (i + 1) false
        { after_push cur i with type := token_type.NONE, tbegin := i }
        (push_current cur toks i)
  | bslash_step (i : Nat) (cur : token) (toks : List token) :
      i < cl.length →
      cl.getD i ' ' = '\\' →
      tok_reaches cl i false cur toks →
      tok_reaches cl (i + 1) true cur toks
  | plain_step (i : Nat) (cur : token) (toks : List token) :
      i < cl.length →
      cl.getD i ' ' ≠ '\r' → cl.getD i ' ' ≠ '\n' → cl.getD i ' ' ≠ ';' →
      cl.getD i ' ' ≠ ' ' → cl.getD i ' ' ≠ '\\' →
      cl.getD i ' ' ≠ '"' → cl.getD i ' ' ≠ '\'' →
      tok_reaches cl i false cur toks →
      tok_reaches cl (i + 1) false
        (renew_string cur toks i).1 (renew_string cur toks i).2
  | quote_step (i q : Nat) (cur : token) (toks : List token) :
      i < cl.length →
      (cl.getD i ' ' = '"' ∨ cl.getD i ' ' = '\'') →
      tokenize_quoted cl i = some q →
      tok_reaches cl i false cur toks →
      tok_reaches cl (q + 1) false
        (renew_string cur toks i).1 (renew_string cur toks i).2

/-- The assignment condition exactly as the specification words it, for
comparison with `is_assignment_span`: the span contains an `=`, its first
character is alphabetic or `_`, and every character strictly between the
start and the first `=` is alphanumeric or `_`. -/
def is_assignment_claimed (s : List Char) : Prop :=
  '=' ∈ s ∧
    (isalpha (s.headD '=') = true ∨ s.headD '=' = '_') ∧
    ∀ c ∈ (s.take (s.findIdx (fun c => c == '='))).drop 1,
      isalnum c = true ∨ c = '_'

end Ben

section Scratch
open Ben

example :
    unescape_string_literal [("FOO".data, "bar".data)] "$FOO".data =
      Except.ok "bar".data := rfl

example :
    unescape_string_literal [("FOO".data, "bar".data)] "${FOO}".data =
      Except.ok "bar".data := rfl

example :
    unescape_string_literal [("FOO".data, "bar".data)] "$UNDEF".data =
      Except.ok [] := rfl

example :
    unescape_string_literal [("FOO".data, "bar".data)] "$".data =
      Except.ok "$".data := rfl

example :
    unescape_string_literal [("FOO".data, "bar".data)] ("$\x7bFOO").data =
      Except.error Err.BadSubstitutionError := rfl

example :
    unescape_string_literal [] "${-}".data = Except.ok "$-\x7d".data := rfl

example : ∀ m : VarStore,
    unescape_string_literal m "'$FOO'".data = Except.ok "$FOO".data :=
  fun _ => rfl

example :
    unescape_string_literal [] "\"\\n\"".data = Except.ok ['\n'] := rfl

example :
    unescape_string_literal [] "\\n".data = Except.ok ['n'] := rfl

example :
    tokenize "a b;c".data =
      Except.ok [⟨token_type.STRING, 0, 1⟩, ⟨token_type.STRING, 2, 3⟩,
                 ⟨token_type.END_STMT, 3, 4⟩, ⟨token_type.STRING, 4, 5⟩,
                 ⟨token_type.END_STMT, 4, 5⟩] := rfl

example :
    tokenize "\\a".data = Except.ok [⟨token_type.END_STMT, 0, 0⟩] := rfl

example : tokenize "\"ab".data = Except.error Err.TokenizeError := rfl

example : tokenize "'ab".data = Except.error Err.TokenizeError := rfl

example :
    parse_command_line "FOO=bar".data =
      Except.ok [⟨command_type.ASSIGN,
        single_statement.assignment_statement "FOO".data "bar".data⟩] := rfl

example :
    parse_command_line "echo a;X=1".data =
      Except.ok [⟨command_type.COMMAND,
          single_statement.command_statement ["echo".data, "a".data]⟩,
        ⟨command_type.ASSIGN,
          single_statement.assignment_statement "X".data "1".data⟩] := rfl

example : is_assignment_span "FOO=bar".data = true := rfl
example : is_assignment_span "1FOO=bar".data = false := rfl
example : is_assignment_span "FOO".data = false := rfl

example :
    execute_command_line "exit;X=1".data ⟨[], false, []⟩ =
      (⟨[("X".data, "1".data)], true, [["exit".data]]⟩, none) := rfl

example :
    execute_command_line "X=1;Y=$\x7b;echo a".data ⟨[], false, []⟩ =
      (⟨[("X".data, "1".data)], false, []⟩,
        some Err.BadSubstitutionError) := rfl

end Scratch

namespace Ben

theorem tq_loop_le (cl : List Char) (endc : Char) :
    ∀ (fuel pos : Nat) (esc : Bool) (p : Nat),
      tq_loop cl endc fuel pos esc = some p → pos ≤ p := by
  intro fuel
  induction fuel with
  | zero =>
    intro pos esc p h
    simp [tq_loop] at h
  | succ fuel ih =>
    intro pos esc p h
    rw [tq_loop] at h
    by_cases hp : pos < cl.length
    · simp only [hp, if_true] at h
      cases esc with
      | true =>
        simp only [if_true] at h
        have := ih (pos + 1) false p h
        omega
      | false =>
        simp only [Bool.false_eq_true, if_false] at h
        by_cases he : (cl.getD pos ' ' == endc) = true
        · simp only [he, if_true, Option.some.injEq] at h
          omega
        · simp only [he, if_false] at h
          have := ih (pos + 1) _ p h
          omega
    · simp [hp] at h

theorem tokenize_quoted_lt (cl : List Char) (pos q : Nat)
    (h : tokenize_quoted cl pos = some q) : pos < q := by
  have := tq_loop_le cl (if cl.getD pos ' ' == '\'' then '\'' else '"')
    cl.length (pos + 1) false q h
  omega

theorem getD_getElem (cl : List Char) (i : Nat) (hi : i < cl.length) :
    cl.getD i ' ' = cl[i] := by
  simp [List.getD_eq_getElem?_getD, List.getElem?_eq_getElem hi]

theorem tg_finish (cl : List Char) (fuel i : Nat) (esc : Bool)
    (cur : token) (toks : List token) (hi : ¬ i < cl.length) :
    tokenize_go cl fuel i esc cur toks =
      Except.ok
        ((if cur.type = token_type.NONE then toks
          else toks ++ [{ cur with tend := cl.length }]) ++
         [{ (if cur.type = token_type.NONE then cur
             else { cur with tend := cl.length }) with
               type := token_type.END_STMT }]) := by
  rw [tokenize_go.eq_def]
  by_cases hn : cur.type = token_type.NONE <;> simp [hi, hn]

theorem tg_step_esc (cl : List Char) (fuel i : Nat)
    (cur : token) (toks : List token) (hi : i < cl.length) :
    tokenize_go cl (fuel + 1) i true cur toks =
      tokenize_go cl fuel (i + 1) false cur toks := by
  rw [tokenize_go.eq_def]
  simp [hi]

theorem tg_step_sep (cl : List Char) (fuel i : Nat)
    (cur : token) (toks : List token) (hi : i < cl.length)
    (hc : cl.getD i ' ' = '\r' ∨ cl.getD i ' ' = '\n' ∨ cl.getD i ' ' = ';') :
    tokenize_go cl (fuel + 1) i false cur toks =
      tokenize_go cl fuel (i + 1) false
        { after_push cur i with type := token_type.END_STMT, tbegin := i }
        (push_current cur toks i) := by
  rw [getD_getElem cl i hi] at hc
  rw [tokenize_go.eq_def]
  rcases hc with hc | hc | hc <;> simp [hi, hc]

theorem tg_step_space (cl : List Char) (fuel i : Nat)
    (cur : token) (toks : List token) (hi : i < cl.length)
    (hc : cl.getD i ' ' = ' ') :
    tokenize_go cl (fuel + 1) i false cur toks =
      tokenize_go cl fuel (i + 1) false
        { after_push cur i with type := token_type.NONE, tbegin := i }
        (push_current cur toks i) := by
  rw [getD_getElem cl i hi] at hc
  rw [tokenize_go.eq_def]
  simp [hi, hc]

theorem tg_step_bslash (cl : List Char) (fuel i : Nat)
    (cur : token) (toks : List token) (hi : i < cl.length)
    (hc : cl.getD i ' ' = '\\') :
    tokenize_go cl (fuel + 1) i false cur toks =
      tokenize_go cl fuel (i + 1) true cur toks := by
  rw [getD_getElem cl i hi] at hc
  rw [tokenize_go.eq_def]
  simp [hi, hc]

theorem tg_step_plain (cl : List Char) (fuel i : Nat)
    (cur : token) (toks : List token) (hi : i < cl.length)
    (h1 : cl.getD i ' ' ≠ '\r') (h2 : cl.getD i ' ' ≠ '\n')
    (h3 : cl.getD i ' ' ≠ ';') (h4 : cl.getD i ' ' ≠ ' ')
    (h5 : cl.getD i ' ' ≠ '\\') (h6 : cl.getD i ' ' ≠ '"')
    (h7 : cl.getD i ' ' ≠ '\'') :
    tokenize_go cl (fuel + 1) i false cur toks =
      tokenize_go cl fuel (i + 1) false
        (renew_string cur toks i).1 (renew_string cur toks i).2 := by
  rw [getD_getElem cl i hi] at h1 h2 h3 h4 h5 h6 h7
  rw [tokenize_go.eq_def]
  simp [hi, h1, h2, h3, h4, h5, h6, h7]

theorem tg_step_quote (cl : List Char) (fuel i : Nat)
    (cur : token) (toks : List token) (hi : i < cl.length)
    (hc : cl.getD i ' ' = '"' ∨ cl.getD i ' ' = '\'') :
    tokenize_go cl (fuel + 1) i false cur toks =
      match tokenize_quoted cl i with
      | none => Except.error Err.TokenizeError
      | some q =>
        tokenize_go cl fuel (q + 1) false
          (renew_string cur toks i).1 (renew_string cur toks i).2 := by
  rw [getD_getElem cl i hi] at hc
  rw [tokenize_go.eq_def]
  rcases hc with hc | hc <;> simp [hi, hc]

theorem tokenize_go_fuel_irrel (cl : List Char) :
    ∀ (f₁ f₂ i : Nat) (esc : Bool) (cur : token) (toks : List token),
      cl.length - i < f₁ → cl.length - i < f₂ →
      tokenize_go cl f₁ i esc cur toks = tokenize_go cl f₂ i esc cur toks := by
  intro f₁
  induction f₁ with
  | zero =>
    intro f₂ i esc cur toks h1 h2
    omega
  | succ f₁ ih =>
    intro f₂ i esc cur toks h1 h2
    by_cases hi : i < cl.length
    · obtain ⟨f₂', rfl⟩ : ∃ k, f₂ = k + 1 := ⟨f₂ - 1, by omega⟩
      cases esc with
      | true =>
        rw [tg_step_esc cl f₁ i cur toks hi, tg_step_esc cl f₂' i cur toks hi]
        exact ih f₂' (i + 1) false cur toks (by omega) (by omega)
      | false =>
        by_cases hsep : cl.getD i ' ' = '\r' ∨ cl.getD i ' ' = '\n' ∨
            cl.getD i ' ' = ';'
        · rw [tg_step_sep cl f₁ i cur toks hi hsep,
              tg_step_sep cl f₂' i cur toks hi hsep]
          exact ih f₂' (i + 1) false _ _ (by omega) (by omega)
        · by_cases hsp : cl.getD i ' ' = ' '
          · rw [tg_step_space cl f₁ i cur toks hi hsp,
                tg_step_space cl f₂' i cur toks hi hsp]
            exact ih f₂' (i + 1) false _ _ (by omega) (by omega)
          · by_cases hbs : cl.getD i ' ' = '\\'
            · rw [tg_step_bslash cl f₁ i cur toks hi hbs,
                  tg_step_bslash cl f₂' i cur toks hi hbs]
              exact ih f₂' (i + 1) true cur toks (by omega) (by omega)
            · by_cases hqu : cl.getD i ' ' = '"' ∨ cl.getD i ' ' = '\''
              · rw [tg_step_quote cl f₁ i cur toks hi hqu,
                    tg_step_quote cl f₂' i cur toks hi hqu]
                cases htq : tokenize_quoted cl i with
                | none => rfl
                | some q =>
                  have hlt := tokenize_quoted_lt cl i q htq
                  exact ih f₂' (q + 1) false _ _ (by omega) (by omega)
              · push_neg at hsep hqu
                rw [tg_step_plain cl f₁ i cur toks hi hsep.1 hsep.2.1
                      hsep.2.2 hsp hbs hqu.1 hqu.2,
                    tg_step_plain cl f₂' i cur toks hi hsep.1 hsep.2.1
                      hsep.2.2 hsp hbs hqu.1 hqu.2]
                exact ih f₂' (i + 1) false _ _ (by omega) (by omega)
    · rw [tg_finish cl (f₁ + 1) i esc cur toks hi,
          tg_finish cl f₂ i esc cur toks hi]

theorem tok_reaches_tokenize (cl : List Char) :
    ∀ (i : Nat) (esc : Bool) (cur : token) (toks : List token),
      tok_reaches cl i esc cur toks →
      ∀ fuel, cl.length - i < fuel →
        tokenize cl = tokenize_go cl fuel i esc cur toks := by
  intro i esc cur toks h
  induction h with
  | init =>
    intro fuel hf
    rw [tokenize]
    exact tokenize_go_fuel_irrel cl (cl.length + 1) fuel 0 false _ _
      (by omega) hf
  | esc_step i cur toks hi hr ih =>
    intro fuel hf
    rw [ih (cl.length - i + 1) (by omega),
        tg_step_esc cl (cl.length - i) i cur toks hi]
    exact tokenize_go_fuel_irrel cl (cl.length - i) fuel (i + 1) false _ _
      (by omega) hf
  | sep_step i cur toks hi hc hr ih =>
    intro fuel hf
    rw [ih (cl.length - i + 1) (by omega),
        tg_step_sep cl (cl.length - i) i cur toks hi hc]
    exact tokenize_go_fuel_irrel cl (cl.length - i) fuel (i + 1) false _ _
      (by omega) hf
  | space_step i cur toks hi hc hr ih =>
    intro fuel hf
    rw [ih (cl.length - i + 1) (by omega),
        tg_step_space cl (cl.length - i) i cur toks hi hc]
    exact tokenize_go_fuel_irrel cl (cl.length - i) fuel (i + 1) false _ _
      (by omega) hf
  | bslash_step i cur toks hi hc hr ih =>
    intro fuel hf
    rw [ih (cl.length - i + 1) (by omega),
        tg_step_bslash cl (cl.length - i) i cur toks hi hc]
    exact tokenize_go_fuel_irrel cl (cl.length - i) fuel (i + 1) true _ _
      (by omega) hf
  | plain_step i cur toks hi h1 h2 h3 h4 h5 h6 h7 hr ih =>
    intro fuel hf
    rw [ih (cl.length - i + 1) (by omega),
        tg_step_plain cl (cl.length - i) i cur toks hi h1 h2 h3 h4 h5 h6 h7]
    exact tokenize_go_fuel_irrel cl (cl.length - i) fuel (i + 1) false _ _
      (by omega) hf
  | quote_step i q cur toks hi hc htq hr ih =>
    intro fuel hf
    have hlt := tokenize_quoted_lt cl i q htq
    rw [ih (cl.length - i + 1) (by omega),
        tg_step_quote cl (cl.length - i) i cur toks hi hc, htq]
    exact tokenize_go_fuel_irrel cl (cl.length - i) fuel (q + 1) false _ _
      (by omega) hf

/-- C1: with the Variable Store mapping FOO to "bar", the expander yields
"bar" for `$FOO` and for the braced form, the empty string for the undefined
name UNDEF (variable lookup returns "" for an undefined name, never an
error), a literal `$` for a bare dollar, and a BadSubstitutionError for an
unterminated brace form. -/
theorem expand_examples :
    unescape_string_literal [("FOO".data, "bar".data)] "$FOO".data =
        Except.ok "bar".data ∧
    unescape_string_literal [("FOO".data, "bar".data)] "${FOO}".data =
        Except.ok "bar".data ∧
    unescape_string_literal [("FOO".data, "bar".data)] "$UNDEF".data =
        Except.ok [] ∧
    lookup_variable [("FOO".data, "bar".data)] "UNDEF".data = [] ∧
    unescape_string_literal [("FOO".data, "bar".data)] "$".data =
        Except.ok "$".data ∧
    unescape_string_literal [("FOO".data, "bar".data)] "$\x7bFOO".data =
        Except.error Err.BadSubstitutionError :=
  ⟨rfl, rfl, rfl, rfl, rfl, rfl⟩

/-- C2 counterexample: in `$\x7b-\x7d` a character that is not a valid name
character (`-`) appears in the brace form before any name character and
before the closing brace, yet the expander does not fail: it emits a literal
`$`, abandons the substitution, and copies `-` and `\x7d` through,
returning "$-\x7d". -/
theorem brace_nonname_no_error :
    unescape_string_literal [] "${-}".data = Except.ok "$-\x7d".data := rfl

/-- C2 (amended): once at least one name character has been accumulated, the
BRACE form terminates only on a closing brace, which is consumed without
reprocessing, and any other non-name character raises the bad-substitution
error; but before the first name character has been accumulated, a character
that cannot start a name does not raise an error — the expander emits a
literal `$`, abandons the substitution, and reprocesses the character under
the normal rules (the opening brace is dropped); an end of input while the
brace form is still open raises the bad-substitution error. -/
theorem brace_mode_behavior (m : VarStore) (st : ExpSt) (c : Char)
    (hsq : st.single_quot = false) (hesc : st.esc_sequence = false)
    (hbr : st.var_expand = expand_type.BRACE) :
    (st.var_name ≠ [] → (isalnum c || c == '_') = false → c ≠ '}' →
        expand_step m st c = Except.error Err.BadSubstitutionError) ∧
    (st.var_name ≠ [] →
        expand_step m st '}' = Except.ok { st with
          result := st.result ++ lookup_variable m st.var_name,
          var_name := [], var_expand := expand_type.NONE }) ∧
    (st.var_name = [] → (isalpha c || c == '_') = false →
        expand_step m st c =
          Except.ok (normal_char { st with result := st.result ++ ['$'],
                                           var_expand := expand_type.NONE } c)) ∧
    expand_finish m st = Except.error Err.BadSubstitutionError := by
  refine ⟨fun hn hc hbc => ?_, fun hn => ?_, fun hn hc => ?_, ?_⟩
  · simp [expand_step, var_stage, name_stage, hsq, hesc, hbr, hn, hc, hbc]
  · simp [expand_step, var_stage, name_stage, hsq, hesc, hbr, hn, isalnum,
      isalpha, isdigit]
  · simp [expand_step, var_stage, name_stage, hsq, hesc, hbr, hn, hc]
  · simp [expand_finish, hbr]

/-- Witness for the amended C2 theorem at a concrete state: in BRACE mode
with the name "F" already accumulated, the character `!` raises the
bad-substitution error. -/
theorem brace_mode_behavior_w :
    expand_step [] ⟨[], false, false, expand_type.BRACE, ['F'], false⟩ '!' =
      Except.error Err.BadSubstitutionError :=
  (brace_mode_behavior [] ⟨[], false, false, expand_type.BRACE, ['F'], false⟩
      '!' rfl rfl rfl).1 (by decide) (by decide) (by decide)

/-- C3 counterexample: in the line backslash-a the escaped `a` is scanned
with the escaped flag set while no token is open; the claim says it opens a
new STRING token containing it, but the tokenizer drops it: the result holds
no STRING token at all, only the trailing END_STMT token. -/
theorem escaped_char_opens_no_token :
    tokenize ['\\', 'a'] =
      Except.ok [{ type := token_type.END_STMT, tbegin := 0, tend := 0 }] :=
  rfl

/-- C3 (amended): at any position scanned with the escaped flag set, the
tokenizer consumes the character literally — it is never treated as a
separator, quote, space, or backslash — clears the flag and advances; the
open token (if any) simply continues across it, its span absorbing the
character when it is later closed.  But when no token is open, nothing opens
one: the character is skipped entirely (the counterexample above).  The
right-hand side does not inspect the character at all. -/
theorem escaped_step_literal (cl : List Char) (fuel i : Nat)
    (cur : token) (toks : List token) (hi : i < cl.length) :
    tokenize_go cl (fuel + 1) i true cur toks =
      tokenize_go cl fuel (i + 1) false cur toks := by
  rw [tokenize_go.eq_def]
  simp [hi]

/-- Witness for the amended C3 theorem at a concrete scan state. -/
theorem escaped_step_literal_w :
    tokenize_go ['a'] 1 0 true ⟨token_type.NONE, 0, 0⟩ [] =
      tokenize_go ['a'] 0 1 false ⟨token_type.NONE, 0, 0⟩ [] :=
  escaped_step_literal ['a'] 0 0 ⟨token_type.NONE, 0, 0⟩ [] (by decide)

/-- C4 counterexample: executing the chain `exit;X=1` raises the
session-exit signal at the first statement, yet the dispatcher still runs
the following assignment — the claim that it stops scheduling the remaining
statements of the chain is false. -/
theorem exit_does_not_stop_chain :
    (execute_command_line "exit;X=1".data ⟨[], false, []⟩).1.repl_exited =
        true ∧
    lookup_variable
        (execute_command_line "exit;X=1".data ⟨[], false, []⟩).1.vars
        "X".data = "1".data :=
  ⟨rfl, rfl⟩

/-- C4 (amended): the dispatcher runs the statements of a chain strictly in
source order and unconditionally: continuation depends neither on a
statement's integer status nor on the session-exit flag, only on whether a
statement threw an error; the exit signal is consulted by the REPL loop only
after the whole line has been executed. -/
theorem run_chain_unconditional :
    (∀ (ns₁ ns₂ : List chain_node) (st : EState),
        run_chain (ns₁ ++ ns₂) st =
          match run_chain ns₁ st with
          | (st₁, none) => run_chain ns₂ st₁
          | (st₁, some e) => (st₁, some e)) ∧
    (∀ (n : chain_node) (rest : List chain_node) (st : EState) (k : Int)
        (st₁ : EState),
        stmt_execute n.stmt st = Except.ok (k, st₁) →
        run_chain (n :: rest) st = run_chain rest st₁) := by
  constructor
  · intro ns₁
    induction ns₁ with
    | nil => intro ns₂ st; simp [run_chain]
    | cons n ns ih =>
      intro ns₂ st
      rw [List.cons_append, run_chain, run_chain]
      cases stmt_execute n.stmt st with
      | error e => rfl
      | ok p => exact ih ns₂ p.2
  · intro n rest st k st₁ h
    rw [run_chain, h]

/-- Witness for the amended C4 theorem: after the exit command has raised
the session-exit signal, the dispatcher still proceeds to the rest of the
chain. -/
theorem run_chain_unconditional_w :
    run_chain
        [⟨command_type.COMMAND, single_statement.command_statement
            ["exit".data]⟩,
         ⟨command_type.ASSIGN, single_statement.assignment_statement
            "X".data "1".data⟩] ⟨[], false, []⟩ =
      run_chain
        [⟨command_type.ASSIGN, single_statement.assignment_statement
            "X".data "1".data⟩] ⟨[], true, [["exit".data]]⟩ :=
  run_chain_unconditional.2
    ⟨command_type.COMMAND, single_statement.command_statement ["exit".data]⟩
    [⟨command_type.ASSIGN, single_statement.assignment_statement
        "X".data "1".data⟩]
    ⟨[], false, []⟩ 0 ⟨[], true, [["exit".data]]⟩ rfl

/-- C5: an error thrown at statement k of a chain aborts only the rest of
that line: the chain walk returns with exactly the state produced by the
statements before k (their assignments remain in the store) and the
statements after k never run; and the REPL loop catches the in-flight error
and proceeds to the next line from that state. -/
theorem error_aborts_only_line :
    (∀ (pre post : List chain_node) (n : chain_node) (st st₁ : EState)
        (e : Err),
        run_chain pre st = (st₁, none) →
        stmt_execute n.stmt st₁ = Except.error e →
        run_chain (pre ++ n :: post) st = (st₁, some e)) ∧
    (∀ (l : List Char) (rest : List (List Char)) (st st₁ st₂ : EState)
        (e : Err),
        execute_command_line (lookup_variable st.vars "PRE_COMMAND".data) st =
          (st₁, none) →
        execute_command_line l st₁ = (st₂, some e) →
        start_repl_go (l :: rest) st = start_repl_go rest st₂) := by
  constructor
  · intro pre
    induction pre with
    | nil =>
      intro post n st st₁ e h he
      rw [run_chain] at h
      obtain ⟨rfl, -⟩ : st = st₁ ∧ (none : Option Err) = none := by
        constructor <;> cases h <;> rfl
      rw [List.nil_append, run_chain, he]
    | cons p ps ih =>
      intro post n st st₁ e h he
      rw [run_chain] at h
      rw [List.cons_append, run_chain]
      cases hs : stmt_execute p.stmt st with
      | error e2 => rw [hs] at h; cases h
      | ok q => rw [hs] at h; exact ih post n q.2 st₁ e h he
  · intro l rest st st₁ st₂ e h1 h2
    rw [start_repl_go, h1]
    simp only
    rw [h2]

/-- Witness for C5: the chain `X=1` then `Y=$\x7b` then `echo` stops at the
bad substitution with the first assignment retained, and the REPL proceeds
past a line that throws. -/
theorem error_aborts_only_line_w :
    run_chain
        ([⟨command_type.ASSIGN, single_statement.assignment_statement
            "X".data "1".data⟩] ++
          ⟨command_type.ASSIGN, single_statement.assignment_statement
            "Y".data "$\x7b".data⟩ ::
          [⟨command_type.COMMAND, single_statement.command_statement
            ["echo".data]⟩]) ⟨[], false, []⟩ =
      (⟨[("X".data, "1".data)], false, []⟩, some Err.BadSubstitutionError) ∧
    start_repl_go ["Y=$\x7b".data] ⟨[], false, []⟩ =
      start_repl_go [] ⟨[], false, []⟩ :=
  ⟨error_aborts_only_line.1
      [⟨command_type.ASSIGN, single_statement.assignment_statement
          "X".data "1".data⟩]
      [⟨command_type.COMMAND, single_statement.command_statement
          ["echo".data]⟩]
      ⟨command_type.ASSIGN, single_statement.assignment_statement
          "Y".data "$\x7b".data⟩
      ⟨[], false, []⟩ ⟨[("X".data, "1".data)], false, []⟩
      Err.BadSubstitutionError rfl rfl,
   error_aborts_only_line.2 "Y=$\x7b".data [] ⟨[], false, []⟩
      ⟨[], false, []⟩ ⟨[], false, []⟩ Err.BadSubstitutionError rfl rfl⟩

/-- C6: whenever the tokenizer's scan reaches (escape flag clear) a quote
character — double or single — for which no matching unescaped closing quote
exists before the end of the line (`tokenize_quoted` finds none), `tokenize`
fails with the TokenizeError. -/
theorem unterminated_quote_tokenize_error (cl : List Char) (i : Nat)
    (cur : token) (toks : List token)
    (hr : tok_reaches cl i false cur toks) (hi : i < cl.length)
    (hq : cl.getD i ' ' = '"' ∨ cl.getD i ' ' = '\'')
    (hnone : tokenize_quoted cl i = none) :
    tokenize cl = Except.error Err.TokenizeError := by
  rw [tok_reaches_tokenize cl i false cur toks hr (cl.length - i + 1)
        (by omega),
      tg_step_quote cl (cl.length - i) i cur toks hi hq, hnone]

/-- Witness for C6 on the line `"ab` with an unterminated double quote. -/
theorem unterminated_quote_tokenize_error_w :
    tokenize "\"ab".data = Except.error Err.TokenizeError :=
  unterminated_quote_tokenize_error "\"ab".data 0
    { type := token_type.NONE, tbegin := 0, tend := 0 } []
    tok_reaches.init (by decide) (Or.inl (by decide)) (by decide)

/-- C7: the assignment classifier returns true exactly when the span
contains an `=`, its first character is alphabetic or `_`, and every
character strictly between the start and the first `=` is alphanumeric or
`_`; "FOO=bar" parses to an assignment with name FOO and raw value bar,
while "1FOO=bar" and "FOO" do not classify as assignments. -/
theorem is_assignment_exact :
    (∀ s : List Char, is_assignment_span s = true ↔ is_assignment_claimed s) ∧
    parse_command_line "FOO=bar".data =
      Except.ok [⟨command_type.ASSIGN,
        single_statement.assignment_statement "FOO".data "bar".data⟩] ∧
    is_assignment_span "1FOO=bar".data = false ∧
    is_assignment_span "FOO".data = false := by
  refine ⟨fun s => ?_, rfl, rfl, rfl⟩
  unfold is_assignment_span is_assignment_claimed
  cases s with
  | nil => simp
  | cons c0 rest =>
    cases hf : (c0 :: rest).findIdx? (fun c => c == '=') with
    | none =>
      have hnm : '=' ∉ c0 :: rest := by
        intro hm
        have := List.findIdx?_eq_none_iff.mp hf '=' hm
        simp at this
      simp [hnm]
    | some idx =>
      have hidx : (c0 :: rest).findIdx (fun c => c == '=') = idx :=
        (List.findIdx?_eq_some_iff_findIdx_eq.mp hf).2
      obtain ⟨hlt, hp, -⟩ := List.findIdx?_eq_some_iff_getElem.mp hf
      have hmem : '=' ∈ c0 :: rest := by
        have : (c0 :: rest)[idx] = '=' := by simpa using hp
        exact this ▸ List.getElem_mem hlt
      rw [hidx]
      cases idx with
      | zero =>
        have hc0 : c0 = '=' := by simpa using hp
        subst hc0
        simp [isalpha]
      | succ k =>
        simp [hmem, List.all_eq_true, Nat.add_sub_cancel]

/-- Witness for C7: the classifier condition instantiated on "A=b". -/
theorem is_assignment_exact_w : is_assignment_claimed "A=b".data :=
  (is_assignment_exact.1 "A=b".data).mp rfl

/-- C8: the expander decodes backslash escapes via the control-character
table only inside a double-quoted region: backslash-n inside double quotes
yields a string containing a literal newline character, while backslash-n
outside quotes yields "n" — a different result in which no newline is
produced; the whole table 0, a, e, t, v behaves likewise inside quotes. -/
theorem escape_table_double_quote_only :
    unescape_string_literal [] "\"\\n\"".data = Except.ok ['\n'] ∧
    unescape_string_literal [] "\\n".data = Except.ok ['n'] ∧
    '\n' ∈ ['\n'] ∧ '\n' ∉ ['n'] ∧
    unescape_string_literal [] "\"\\0\\a\\e\\t\\v\"".data =
      Except.ok ['\x00', '\x07', '\x1b', '\t', '\x0b'] :=
  ⟨rfl, rfl, by decide, by decide, rfl⟩

/-- C9: for every Variable Store, single quotes suppress substitution:
expanding `'$FOO'` yields the literal string "$FOO" with no lookup. -/
theorem single_quote_suppresses (m : VarStore) :
    unescape_string_literal m "'$FOO'".data = Except.ok "$FOO".data := rfl

/-- Witness for C9 at a store that does map FOO. -/
theorem single_quote_suppresses_w :
    unescape_string_literal [("FOO".data, "bar".data)] "'$FOO'".data =
      Except.ok "$FOO".data :=
  single_quote_suppresses [("FOO".data, "bar".data)]

/-- C10: the parse phase of execute_command_line is independent of the
ambient interpreter state: for any two Variable Store contents the same
statement chain (same kinds, names, raw values, and raw argument lists in
the same order) is produced — tokenization and assignment classification
never read a variable's value. -/
theorem parse_independent_of_store (line : List Char) (st₁ st₂ : EState) :
    parse_phase st₁ line = parse_phase st₂ line := rfl

/-- Witness for C10 on a concrete line under two different stores. -/
theorem parse_independent_of_store_w :
    parse_phase ⟨[("X".data, "1".data)], false, []⟩ "echo $X;Y=2".data =
      parse_phase ⟨[], true, []⟩ "echo $X;Y=2".data :=
  parse_independent_of_store "echo $X;Y=2".data
    ⟨[("X".data, "1".data)], false, []⟩ ⟨[], true, []⟩

end Ben
